import Mathlib

/-!
Verification of the dex-aggregator quote pipeline.

This file gives a shallow embedding of the Go sources of the
`bimakw/dex-aggregator` repository and proves the frozen claims about it.
`math/big` integers are modelled as `Int` (with `Option Int` where the Go
code distinguishes a nil pointer), and Go's `big.Int.Div` — Euclidean
division — is modelled by `Int.ediv` (`bigDiv`).  Ethereum addresses are
modelled as natural numbers with decidable equality; only equality of
addresses is ever observed by the embedded code.

Fields of the Go structs that no embedded computation reads (the
`Sources` map of venue-name strings and the human-readable
`PriceWarning`, which is produced by floating-point formatting) are not
modelled.
-/

namespace DexAgg

/-- Ethereum addresses: only decidable equality is observed. -/
abbrev Address := Nat

/-- `entities.Token` from `internal/domain/entities/token.go`. -/
structure Token where
  address : Address
  symbol : String
  decimals : Nat
deriving Repr, DecidableEq

/-- `entities.DEXType` from `internal/domain/entities/pair.go`. -/
inductive DEXType where
  | uniswapV2
  | uniswapV3
  | sushiswap
  | curve
  | balancer
deriving Repr, DecidableEq

/-- `entities.Pair` from `internal/domain/entities/pair.go`.  The
`*big.Int` reserves are `Option Int` (`none` = nil pointer). -/
structure Pair where
  address : Address
  token0 : Token
  token1 : Token
  reserve0 : Option Int
  reserve1 : Option Int
  dex : DEXType
  fee : Nat
  updatedAt : Int
deriving Repr, DecidableEq

/-- Go `big.Int.Div` is Euclidean division, i.e. `Int.ediv`. -/
def bigDiv (x y : Int) : Int := Int.ediv x y

/-- `Pair.GetAmountOut` (`pair.go` lines 43–73).  Returns 0 when
`amountIn` is nil or non-positive; chooses `reserveIn`/`reserveOut` by
comparing `tokenIn` with `Token0.Address`; returns 0 when either chosen
reserve is nil or has zero sign; otherwise computes the constant-product
output with the fee applied over denominator 10000. -/
def getAmountOut (p : Pair) (amountIn : Option Int) (tokenIn : Address) : Int :=
  match amountIn with
  | none => 0
  | some a =>
    if a ≤ 0 then 0
    else
      let rInO := if tokenIn = p.token0.address then p.reserve0 else p.reserve1
      let rOutO := if tokenIn = p.token0.address then p.reserve1 else p.reserve0
      match rInO, rOutO with
      | some reserveIn, some reserveOut =>
        if reserveIn = 0 ∨ reserveOut = 0 then 0
        else
          let feeMultiplier : Int := 10000 - (p.fee : Int)
          let amountInWithFee := a * feeMultiplier
          bigDiv (amountInWithFee * reserveOut) (reserveIn * 10000 + amountInWithFee)
      | _, _ => 0

/-- `entities.Hop` from `internal/domain/entities/route.go`. -/
structure Hop where
  pair : Pair
  tokenIn : Address
  tokenOut : Address
deriving Repr, DecidableEq

/-- `entities.Route` from `internal/domain/entities/route.go`. -/
structure Route where
  hops : List Hop
  tokenIn : Token
  tokenOut : Token
  amountIn : Option Int
  amountOut : Option Int
  priceImpact : Option Int
  gasEstimate : Nat
deriving Repr, DecidableEq

/-- `entities.SplitRoute` (the split-leg struct used by the router). -/
structure SplitRoute where
  route : Option Route
  percentage : Nat
  amountIn : Int
  amountOut : Int
deriving Repr, DecidableEq

/-- `entities.Quote` from `internal/domain/entities/route.go`, extended by
the smart-router fields (`SplitRoutes`, `MinAmountOut`, `SlippageBps`).
The `Sources` string map and `PriceWarning` are not modelled. -/
structure Quote where
  tokenIn : Token
  tokenOut : Token
  amountIn : Int
  amountOut : Option Int
  bestRoute : Option Route
  splitRoutes : List SplitRoute
  priceImpact : Option Int
  minAmountOut : Option Int
  slippageBps : Nat
  gasEstimate : Nat
deriving Repr, DecidableEq

/-- The hop-propagation loop shared by `Route.CalculateAmountOut` and
`Route.calculateSpotAmount` (`route.go`): feed `current` through each
hop's `GetAmountOut`; as soon as a hop yields a non-positive amount the
loop returns 0. -/
def propagateHops : List Hop → Int → Int
  | [], current => current
  | hop :: rest, current =>
    let next := getAmountOut hop.pair (some current) hop.tokenIn
    if next ≤ 0 then 0 else propagateHops rest next

/-- `Route.CalculateAmountOut` (`route.go` lines 40–54). -/
def calculateAmountOut (r : Route) : Int :=
  match r.amountIn with
  | none => 0
  | some a => if r.hops = [] then 0 else propagateHops r.hops a

/-- `Route.calculateSpotAmount` (`route.go` lines 85–105): simulate the
route with the probe input `10^15` and scale linearly.  When the probe
dies inside a hop the Go code returns 0 directly; here `propagateHops`
returns 0 and the scaling then also yields 0. -/
def calculateSpotAmount (r : Route) : Int :=
  match r.amountIn with
  | none => 0
  | some a =>
    if r.hops = [] then 0
    else
      let testAmount : Int := 10 ^ 15
      let testOutput := propagateHops r.hops testAmount
      bigDiv (a * testOutput) testAmount

/-- `Route.CalculatePriceImpact` (`route.go` lines 58–82). -/
def calculatePriceImpact (r : Route) : Int :=
  match r.amountIn with
  | none => 0
  | some a =>
    if r.hops = [] ∨ a = 0 then 0
    else
      let spotAmount := calculateSpotAmount r
      if spotAmount = 0 then 0
      else
        let actualAmount := calculateAmountOut r
        if actualAmount = 0 then 10000
        else
          let diff := spotAmount - actualAmount
          if diff ≤ 0 then 0 else bigDiv (diff * 10000) spotAmount

/-- `services.PriceResult` from `price_service.go`.  `err` is true when
the Go `Error` field is non-nil. -/
structure PriceResult where
  dex : DEXType
  amountOut : Option Int
  pair : Option Pair
  err : Bool
deriving Repr, DecidableEq

/-- A placeholder pair: dereferencing a nil `*entities.Pair` panics in
Go; the embedded router only reads `pair` after `filterValidPrices` has
ensured it is present, so this default is never observable there. -/
def emptyPair : Pair :=
  { address := 0, token0 := ⟨0, "", 0⟩, token1 := ⟨0, "", 0⟩,
    reserve0 := none, reserve1 := none, dex := .uniswapV2, fee := 0, updatedAt := 0 }

/-- The `AmountOut` value of a price result (0 for nil). -/
def outOf (p : PriceResult) : Int := p.amountOut.getD 0

/-- The `Pair` pointed to by a price result. -/
def pairOf (p : PriceResult) : Pair := p.pair.getD emptyPair

/-- The filter predicate of `filterValidPrices` (`router_service.go`):
no error, `AmountOut` non-nil with positive sign, `Pair` non-nil. -/
def isValidPrice (p : PriceResult) : Bool :=
  !p.err && (match p.amountOut with | some v => decide (0 < v) | none => false)
    && p.pair.isSome

/-- Insertion step of the descending sort used by `sort.Slice` with
`less i j ↔ out i > out j` in `filterValidPrices`/`trySplitOrder`. -/
def insertByOutDesc (p : PriceResult) : List PriceResult → List PriceResult
  | [] => [p]
  | q :: rest => if outOf q < outOf p then p :: q :: rest else q :: insertByOutDesc p rest

/-- Sort price results by `AmountOut`, descending. -/
def sortByOutDesc : List PriceResult → List PriceResult
  | [] => []
  | p :: rest => insertByOutDesc p (sortByOutDesc rest)

/-- `filterValidPrices` (`router_service.go`): keep valid results, then
sort by output amount descending. -/
def filterValidPrices (l : List PriceResult) : List PriceResult :=
  sortByOutDesc (l.filter isValidPrice)

/-- `estimateGas` (`router_service.go`): 150000 for a nil/empty route,
else `21000 + 100000` per hop. -/
def estimateGas : Option Route → Nat
  | none => 150000
  | some r => if r.hops.length = 0 then 150000 else 21000 + r.hops.length * 100000

/-- `RouterService.buildRoute` (`router_service.go`). -/
def buildRoute (tIn tOut : Token) (amountIn : Int) (res : PriceResult) : Route :=
  { hops := [{ pair := pairOf res, tokenIn := tIn.address, tokenOut := tOut.address }],
    tokenIn := tIn, tokenOut := tOut, amountIn := some amountIn,
    amountOut := some (outOf res), priceImpact := none, gasEstimate := estimateGas none }

/-- `DefaultSlippageBps` (`router_service.go`). -/
def defaultSlippageBps : Nat := 50

/-- `RouterService.applySlippageProtection` (`router_service.go`):
when `AmountOut` is nil or non-positive do nothing, else set
`MinAmountOut = amountOut * (10000 - slippageBps) / 10000` and record
the slippage. -/
def applySlippageProtection (q : Quote) (slippageBps : Nat) : Quote :=
  match q.amountOut with
  | none => q
  | some v =>
    if v ≤ 0 then q
    else
      { q with minAmountOut := some (bigDiv (v * ((10000 : Int) - (slippageBps : Int))) 10000),
               slippageBps := slippageBps }

/-- `calculateSplitPriceImpact` (`router_service.go`): percentage-weighted
average of the legs' price impacts. -/
def calculateSplitPriceImpact (splits : List SplitRoute) : Int :=
  if splits = [] then 0
  else
    let acc := splits.foldl
      (fun (acc : Int × Int) (split : SplitRoute) =>
        match split.route with
        | some r => (acc.1 + (split.percentage : Int),
                     acc.2 + calculatePriceImpact r * (split.percentage : Int))
        | none => acc)
      (0, 0)
    if acc.1 = 0 then 0 else bigDiv acc.2 acc.1

/-- The state threaded through `trySplitOrder`'s loop over the split
ratios: best total output, the legs realising it, and their gas. -/
structure SplitState where
  bestOut : Int
  bestSplits : List SplitRoute
  bestGas : Nat
deriving Repr, DecidableEq

/-- The one-hop `Route` literal built for a split leg in `trySplitOrder`. -/
def mkSplitLegRoute (tIn tOut : Token) (p : Pair) (a o : Int) : Route :=
  { hops := [{ pair := p, tokenIn := tIn.address, tokenOut := tOut.address }],
    tokenIn := tIn, tokenOut := tOut, amountIn := some a, amountOut := some o,
    priceImpact := none, gasEstimate := estimateGas none }

/-- The split ratios tried by `trySplitOrder`: 50/50, 60/40, 70/30, 80/20. -/
def splitRatios : List (Nat × Nat) := [(50, 50), (60, 40), (70, 30), (80, 20)]

/-- One iteration of `trySplitOrder`'s ratio loop (`router_service.go`):
`amount1 = amountIn * r1 / 100`, `amount2 = amountIn - amount1`, quote
each half on the top two pairs, and keep the state whose total output is
strictly larger than the best so far. -/
def splitStep (tIn tOut : Token) (amountIn : Int) (p0 p1 : Pair)
    (st : SplitState) (rt : Nat × Nat) : SplitState :=
  let amount1 := bigDiv (amountIn * (rt.1 : Int)) 100
  let amount2 := amountIn - amount1
  let output1 := getAmountOut p0 (some amount1) tIn.address
  let output2 := getAmountOut p1 (some amount2) tIn.address
  let totalOutput := output1 + output2
  if st.bestOut < totalOutput then
    { bestOut := totalOutput,
      bestSplits :=
        [ { route := some (mkSplitLegRoute tIn tOut p0 amount1 output1),
            percentage := rt.1, amountIn := amount1, amountOut := output1 },
          { route := some (mkSplitLegRoute tIn tOut p1 amount2 output2),
            percentage := rt.2, amountIn := amount2, amountOut := output2 } ],
      bestGas := estimateGas none * 2 }
  else st

/-- The full ratio loop of `trySplitOrder`, starting from
`bestSplitOutput = 0`, no splits, `bestGas = 0`. -/
def splitFold (tIn tOut : Token) (amountIn : Int) (p0 p1 : Pair) : SplitState :=
  splitRatios.foldl (splitStep tIn tOut amountIn p0 p1) ⟨0, [], 0⟩

/-- The split `Quote` literal returned by `trySplitOrder` when the split
beats the best single venue (gas = `bestGas + singleGas`). -/
def mkSplitQuote (tIn tOut : Token) (amountIn : Int) (pr0 : PriceResult)
    (st : SplitState) : Quote :=
  { tokenIn := tIn, tokenOut := tOut, amountIn := amountIn,
    amountOut := some st.bestOut,
    bestRoute := some (buildRoute tIn tOut amountIn pr0),
    splitRoutes := st.bestSplits,
    priceImpact := some (calculateSplitPriceImpact st.bestSplits),
    minAmountOut := none, slippageBps := 0,
    gasEstimate := st.bestGas + estimateGas none }

/-- `RouterService.trySplitOrder` (`router_service.go`): sort the price
results descending, try the four split ratios over the top two venues,
and return a split quote only when the best split output strictly
exceeds the best single-venue output. -/
def trySplitOrder (tIn tOut : Token) (amountIn : Int)
    (prices : List PriceResult) : Option Quote :=
  if prices.length < 2 then none
  else
    match sortByOutDesc prices with
    | pr0 :: pr1 :: _ =>
      if (splitFold tIn tOut amountIn (pairOf pr0) (pairOf pr1)).bestOut ≤ outOf pr0 then
        none
      else
        some (mkSplitQuote tIn tOut amountIn pr0
          (splitFold tIn tOut amountIn (pairOf pr0) (pairOf pr1)))
    | _ => none

/-- The single-venue fallback quote built inside `GetSmartQuote`. -/
def fallbackQuote (tIn tOut : Token) (amountIn : Int) (best : PriceResult) : Quote :=
  let route := buildRoute tIn tOut amountIn best
  { tokenIn := tIn, tokenOut := tOut, amountIn := amountIn,
    amountOut := some (outOf best), bestRoute := some route, splitRoutes := [],
    priceImpact := some (calculatePriceImpact route), minAmountOut := none,
    slippageBps := 0, gasEstimate := estimateGas (some route) }

/-- `RouterService.GetSmartQuote` (`router_service.go`), modelled from
the point where the per-venue price results are in hand (the concurrent
`GetPrices` fan-out is the argument `prices`): substitute the default
slippage for 0, filter and sort the results, try a split when at least
two venues remain, otherwise fall back to the best single venue, and
apply slippage protection.  (The price-impact warning string is not
modelled.)  `effectiveSlippage` is the substitution at the top of
`GetSmartQuote`: a requested slippage of 0 becomes the default 50 bps. -/
def effectiveSlippage (slippageBps : Nat) : Nat :=
  if slippageBps = 0 then defaultSlippageBps else slippageBps

def getSmartQuote (tIn tOut : Token) (amountIn : Int) (slippageBps : Nat)
    (prices : List PriceResult) : Option Quote :=
  match filterValidPrices prices with
  | [] => none
  | best :: rest =>
    match (if 2 ≤ (best :: rest).length then
             trySplitOrder tIn tOut amountIn (best :: rest)
           else none) with
    | some q => some (applySlippageProtection q (effectiveSlippage slippageBps))
    | none =>
      some (applySlippageProtection (fallbackQuote tIn tOut amountIn best)
        (effectiveSlippage slippageBps))

/-- The best split total output that `trySplitOrder` would find on a
price list: the `bestOut` of the ratio loop over the top two venues
(0 when fewer than two results are present). -/
def bestSplitTotal (tIn tOut : Token) (amountIn : Int)
    (prices : List PriceResult) : Int :=
  match sortByOutDesc prices with
  | pr0 :: pr1 :: _ => (splitFold tIn tOut amountIn (pairOf pr0) (pairOf pr1)).bestOut
  | _ => 0

/-- The body of the per-venue goroutine of `PriceService.GetPrices`
(`price_service.go` lines 46–79), sequentialised: on a cache hit the
cached snapshot's `GetAmountOut` is used and the adapter is never
consulted; on a miss the adapter's `GetPairByTokens` result (`none` =
adapter error) is quoted with the same local math. -/
def venueFetchResult (dexT : DEXType) (cached : Option Pair)
    (adapterPair : Option Pair) (amountIn : Option Int)
    (tokenInAddr : Address) : PriceResult :=
  match cached with
  | some cachedPair =>
    { dex := dexT, amountOut := some (getAmountOut cachedPair amountIn tokenInAddr),
      pair := some cachedPair, err := false }
  | none =>
    match adapterPair with
    | none => { dex := dexT, amountOut := none, pair := none, err := true }
    | some pair =>
      { dex := dexT, amountOut := some (getAmountOut pair amountIn tokenInAddr),
        pair := some pair, err := false }

/-- The `entities.Pair` literal built by `UniswapV3Client.GetPairByTokens`
(`balancer.go` lines 410–419) once a pool address has been found:
reserves are hard-coded to 0 because V3 uses concentrated liquidity. -/
def mkV3Pair (poolAddr : Address) (token0 token1 : Token) (fee : Nat)
    (updatedAt : Int) : Pair :=
  { address := poolAddr, token0 := token0, token1 := token1,
    reserve0 := some 0, reserve1 := some 0,
    dex := .uniswapV3, fee := fee, updatedAt := updatedAt }

/-- Invariant of the state threaded through `trySplitOrder`'s ratio
loop: either no split has been recorded yet (output 0), or the state
holds exactly the two legs of some ratio summing to 100, with the first
leg's input `amountIn * r1 / 100`, the second the remainder, the total
output the sum of the two legs' outputs, and the doubled swap gas. -/
def SplitStateOK (tIn tOut : Token) (amountIn : Int) (p0 p1 : Pair)
    (st : SplitState) : Prop :=
  (st.bestSplits = [] ∧ st.bestOut = 0) ∨
  ∃ r1 r2 : Nat,
    r1 + r2 = 100 ∧
    st.bestSplits =
      [ { route := some (mkSplitLegRoute tIn tOut p0 (bigDiv (amountIn * (r1 : Int)) 100)
            (getAmountOut p0 (some (bigDiv (amountIn * (r1 : Int)) 100)) tIn.address)),
          percentage := r1,
          amountIn := bigDiv (amountIn * (r1 : Int)) 100,
          amountOut := getAmountOut p0 (some (bigDiv (amountIn * (r1 : Int)) 100)) tIn.address },
        { route := some (mkSplitLegRoute tIn tOut p1 (amountIn - bigDiv (amountIn * (r1 : Int)) 100)
            (getAmountOut p1 (some (amountIn - bigDiv (amountIn * (r1 : Int)) 100)) tIn.address)),
          percentage := r2,
          amountIn := amountIn - bigDiv (amountIn * (r1 : Int)) 100,
          amountOut := getAmountOut p1 (some (amountIn - bigDiv (amountIn * (r1 : Int)) 100)) tIn.address } ] ∧
    st.bestOut = getAmountOut p0 (some (bigDiv (amountIn * (r1 : Int)) 100)) tIn.address
               + getAmountOut p1 (some (amountIn - bigDiv (amountIn * (r1 : Int)) 100)) tIn.address ∧
    st.bestGas = 300000

/-- Example tokens and pools used by the concrete witnesses below. -/
def tokA : Token := ⟨1, "TKA", 18⟩

def tokB : Token := ⟨2, "TKB", 18⟩

/-- An equal-reserve zero-fee constant-product pool on venue A. -/
def poolA : Pair := ⟨10, tokA, tokB, some 100, some 100, .uniswapV2, 0, 0⟩

/-- An identical pool on venue B. -/
def poolB : Pair := ⟨11, tokA, tokB, some 100, some 100, .sushiswap, 0, 0⟩

/-- A deeper 0.3 %-fee pool used by the single-venue witnesses. -/
def poolC : Pair := ⟨12, tokA, tokB, some 1000, some 1000, .uniswapV2, 30, 0⟩

/-- A valid price result for a pool, carrying its full-amount quote. -/
def mkPriceResult (d : DEXType) (p : Pair) (o : Int) : PriceResult :=
  { dex := d, amountOut := some o, pair := some p, err := false }

/-- Two-venue candidate list on which the 50/50 split strictly beats the
best single venue (out 66 vs 50 for `amountIn = 100`). -/
def twoVenuePrices : List PriceResult :=
  [ mkPriceResult .uniswapV2 poolA (getAmountOut poolA (some 100) tokA.address),
    mkPriceResult .sushiswap poolB (getAmountOut poolB (some 100) tokA.address) ]

/-- One-venue candidate list: no split is possible. -/
def oneVenuePrices : List PriceResult :=
  [ mkPriceResult .uniswapV2 poolC (getAmountOut poolC (some 100) tokA.address) ]

/-- A default quote, used only to name concrete results of
`getSmartQuote`/`trySplitOrder` in the witnesses. -/
def emptyQuote : Quote :=
  { tokenIn := tokA, tokenOut := tokB, amountIn := 0, amountOut := none,
    bestRoute := none, splitRoutes := [], priceImpact := none,
    minAmountOut := none, slippageBps := 0, gasEstimate := 0 }

/-- The concrete split quote of the two-venue witness scenario. -/
def splitWitnessQuote : Quote :=
  (trySplitOrder tokA tokB 100 twoVenuePrices).getD emptyQuote

/-- The concrete smart quote of the two-venue witness scenario. -/
def smartWitnessQuote : Quote :=
  (getSmartQuote tokA tokB 100 0 twoVenuePrices).getD emptyQuote

/-- The concrete smart quote of the one-venue witness scenario with a
requested slippage of 100 bps. -/
def singleWitnessQuote : Quote :=
  (getSmartQuote tokA tokB 100 100 oneVenuePrices).getD emptyQuote

/-- A one-hop route over a deep pool with a 10 % input, used by the
price-impact witness. -/
def impactWitnessRoute : Route :=
  { hops := [{ pair := ⟨13, tokA, tokB, some (10 ^ 18), some (10 ^ 18), .uniswapV2, 0, 0⟩,
               tokenIn := tokA.address, tokenOut := tokB.address }],
    tokenIn := tokA, tokenOut := tokB, amountIn := some (10 ^ 17),
    amountOut := none, priceImpact := none, gasEstimate := 0 }

/-- The cached V3 snapshot of the cache-hit scenario (zero reserves). -/
def cachedV3Pair : Pair := mkV3Pair 20 tokA tokB 3000 0

theorem bigDiv_eq (x y : Int) : bigDiv x y = x / y := rfl

theorem bigDiv_nonneg {x y : Int} (hx : 0 ≤ x) (hy : 0 ≤ y) : 0 ≤ bigDiv x y :=
  Int.ediv_nonneg hx hy

theorem bigDiv_nonpos {x y : Int} (hx : x ≤ 0) (hy : 0 < y) : bigDiv x y ≤ 0 := by
  have h := Int.ediv_le_ediv hy hx
  simpa [bigDiv_eq] using h

/-- Cross-multiplication bound for Euclidean division by positive
divisors: `A*D ≤ C*B → A/B ≤ C/D`. -/
theorem bigDiv_le_bigDiv_cross {A B C D : Int} (hB : 0 < B) (hD : 0 < D)
    (h : A * D ≤ C * B) : bigDiv A B ≤ bigDiv C D := by
  rw [bigDiv_eq, bigDiv_eq, Int.le_ediv_iff_mul_le hD]
  have h1 : A / B * D * B ≤ A * D := by
    have hmul := Int.ediv_mul_le A (by omega : B ≠ 0)
    calc A / B * D * B = A / B * B * D := by ring
      _ ≤ A * D := mul_le_mul_of_nonneg_right hmul hD.le
  exact le_of_mul_le_mul_right (h1.trans h) hB

theorem bigDiv_mul_le_self {v m : Int} (hv : 0 ≤ v) (hm : m ≤ 10000) :
    bigDiv (v * m) 10000 ≤ v := by
  have h1 : v * m ≤ v * 10000 := mul_le_mul_of_nonneg_left hm hv
  have h2 : bigDiv (v * m) 10000 ≤ bigDiv (v * 10000) 10000 :=
    bigDiv_le_bigDiv_cross (by norm_num) (by norm_num)
      (mul_le_mul_of_nonneg_right h1 (by norm_num))
  have h3 : bigDiv (v * 10000) 10000 = v := by
    rw [bigDiv_eq]; exact Int.mul_ediv_cancel v (by norm_num)
  omega

theorem mem_insertByOutDesc {x p : PriceResult} {l : List PriceResult} :
    x ∈ insertByOutDesc p l ↔ x = p ∨ x ∈ l := by
  induction l with
  | nil => simp [insertByOutDesc]
  | cons q rest ih =>
    rw [insertByOutDesc]
    by_cases hc : outOf q < outOf p
    · rw [if_pos hc]; simp
    · rw [if_neg hc]; simp [ih]; tauto

theorem mem_sortByOutDesc {x : PriceResult} {l : List PriceResult} :
    x ∈ sortByOutDesc l ↔ x ∈ l := by
  induction l with
  | nil => simp [sortByOutDesc]
  | cons p rest ih => simp [sortByOutDesc, mem_insertByOutDesc, ih]

theorem length_insertByOutDesc (p : PriceResult) (l : List PriceResult) :
    (insertByOutDesc p l).length = l.length + 1 := by
  induction l with
  | nil => rfl
  | cons q rest ih =>
    rw [insertByOutDesc]
    by_cases hc : outOf q < outOf p
    · rw [if_pos hc]; simp
    · rw [if_neg hc]; simp [ih]

theorem length_sortByOutDesc (l : List PriceResult) :
    (sortByOutDesc l).length = l.length := by
  induction l with
  | nil => rfl
  | cons p rest ih => rw [sortByOutDesc, length_insertByOutDesc, ih]; rfl

/-- The head of the descending sort dominates every element of the
input list. -/
theorem sortByOutDesc_head_max :
    ∀ (l : List PriceResult) (p : PriceResult) (t : List PriceResult),
      sortByOutDesc l = p :: t → ∀ x ∈ l, outOf x ≤ outOf p := by
  intro l
  induction l with
  | nil => intro p t h; simp [sortByOutDesc] at h
  | cons a rest ih =>
    intro p t h x hx
    rw [sortByOutDesc] at h
    rcases hrest : sortByOutDesc rest with _ | ⟨b, t'⟩
    · rw [hrest] at h
      rw [insertByOutDesc] at h
      obtain ⟨rfl, -⟩ := List.cons.inj h
      rcases List.mem_cons.mp hx with rfl | hx'
      · exact le_refl _
      · exfalso
        have : x ∈ sortByOutDesc rest := mem_sortByOutDesc.mpr hx'
        rw [hrest] at this
        simp at this
    · rw [hrest] at h
      rw [insertByOutDesc] at h
      by_cases hc : outOf b < outOf a
      · rw [if_pos hc] at h
        obtain ⟨rfl, -⟩ := List.cons.inj h
        rcases List.mem_cons.mp hx with rfl | hx'
        · exact le_refl _
        · exact (ih b t' hrest x hx').trans hc.le
      · rw [if_neg hc] at h
        obtain ⟨rfl, -⟩ := List.cons.inj h
        push_neg at hc
        rcases List.mem_cons.mp hx with rfl | hx'
        · exact hc
        · exact ih b t' hrest x hx'

theorem isValidPrice_out_pos {p : PriceResult} (h : isValidPrice p = true) :
    0 < outOf p := by
  unfold isValidPrice at h
  rcases hpo : p.amountOut with _ | v
  · rw [hpo] at h; simp at h
  · rw [hpo] at h
    simp only [Bool.and_eq_true, decide_eq_true_eq] at h
    simpa [outOf, hpo] using h.1.2

theorem mem_filterValid_out_pos {p : PriceResult} {l : List PriceResult}
    (h : p ∈ filterValidPrices l) : 0 < outOf p := by
  unfold filterValidPrices at h
  rw [mem_sortByOutDesc] at h
  exact isValidPrice_out_pos (List.mem_filter.mp h).2

/-- The head of `filterValidPrices` has the largest output among the
valid results. -/
theorem filterValid_head_max {l : List PriceResult} {best : PriceResult}
    {rest : List PriceResult} (h : filterValidPrices l = best :: rest) :
    ∀ p ∈ filterValidPrices l, outOf p ≤ outOf best := by
  intro p hp
  unfold filterValidPrices at h hp
  rw [mem_sortByOutDesc] at hp
  exact sortByOutDesc_head_max _ _ _ h p hp

theorem splitStep_ok {tIn tOut : Token} {amountIn : Int} {p0 p1 : Pair}
    {st : SplitState} {rt : Nat × Nat} (hsum : rt.1 + rt.2 = 100)
    (h : SplitStateOK tIn tOut amountIn p0 p1 st) :
    SplitStateOK tIn tOut amountIn p0 p1 (splitStep tIn tOut amountIn p0 p1 st rt) := by
  rw [splitStep]
  by_cases hlt : st.bestOut <
      getAmountOut p0 (some (bigDiv (amountIn * (rt.1 : Int)) 100)) tIn.address +
      getAmountOut p1 (some (amountIn - bigDiv (amountIn * (rt.1 : Int)) 100)) tIn.address
  · rw [if_pos hlt]
    exact Or.inr ⟨rt.1, rt.2, hsum, rfl, rfl, rfl⟩
  · rw [if_neg hlt]
    exact h

theorem splitFold_ok (tIn tOut : Token) (amountIn : Int) (p0 p1 : Pair) :
    SplitStateOK tIn tOut amountIn p0 p1 (splitFold tIn tOut amountIn p0 p1) := by
  have base : SplitStateOK tIn tOut amountIn p0 p1 ⟨0, [], 0⟩ := Or.inl ⟨rfl, rfl⟩
  rw [splitFold, splitRatios]
  simp only [List.foldl]
  exact splitStep_ok rfl (splitStep_ok rfl (splitStep_ok rfl (splitStep_ok rfl base)))

/-- When a split quote is returned, the sorted list has at least two
entries, the loop's best total strictly beats the head's single-venue
output, and the quote is the split-quote literal over that state. -/
theorem trySplitOrder_some_spec {tIn tOut : Token} {amountIn : Int}
    {prices : List PriceResult} {q : Quote}
    (h : trySplitOrder tIn tOut amountIn prices = some q) :
    ∃ pr0 pr1 rest, sortByOutDesc prices = pr0 :: pr1 :: rest ∧
      outOf pr0 < (splitFold tIn tOut amountIn (pairOf pr0) (pairOf pr1)).bestOut ∧
      q = mkSplitQuote tIn tOut amountIn pr0
            (splitFold tIn tOut amountIn (pairOf pr0) (pairOf pr1)) := by
  rw [trySplitOrder] at h
  split at h
  · exact absurd h (by simp)
  · split at h
    · rename_i pr0 pr1 tail hs
      split at h
      · exact absurd h (by simp)
      · rename_i hc
        push_neg at hc
        exact ⟨pr0, pr1, tail, hs, hc, (Option.some.inj h).symm⟩
    · exact absurd h (by simp)

/-- When no split quote is returned despite two or more candidates, the
loop's best total does not beat the head's single-venue output. -/
theorem trySplitOrder_none_spec {tIn tOut : Token} {amountIn : Int}
    {prices : List PriceResult} (hl : 2 ≤ prices.length)
    (h : trySplitOrder tIn tOut amountIn prices = none) :
    ∃ pr0 pr1 rest, sortByOutDesc prices = pr0 :: pr1 :: rest ∧
      (splitFold tIn tOut amountIn (pairOf pr0) (pairOf pr1)).bestOut ≤ outOf pr0 := by
  rw [trySplitOrder] at h
  rw [if_neg (by omega)] at h
  split at h
  · rename_i pr0 pr1 tail hs
    split at h
    · rename_i hc
      exact ⟨pr0, pr1, tail, hs, hc⟩
    · exact absurd h (by simp)
  · rename_i hall
    exfalso
    have hlen := length_sortByOutDesc prices
    rcases hs : sortByOutDesc prices with _ | ⟨a, _ | ⟨b, tail⟩⟩
    · rw [hs] at hlen; simp at hlen; omega
    · rw [hs] at hlen; simp at hlen; omega
    · exact hall a b tail hs

theorem applySlippage_amountOut (q : Quote) (s : Nat) :
    (applySlippageProtection q s).amountOut = q.amountOut := by
  rw [applySlippageProtection]
  split
  · rfl
  · split <;> simp_all

theorem applySlippage_splitRoutes (q : Quote) (s : Nat) :
    (applySlippageProtection q s).splitRoutes = q.splitRoutes := by
  rw [applySlippageProtection]
  split
  · rfl
  · split <;> rfl

theorem applySlippage_gasEstimate (q : Quote) (s : Nat) :
    (applySlippageProtection q s).gasEstimate = q.gasEstimate := by
  rw [applySlippageProtection]
  split
  · rfl
  · split <;> rfl

theorem applySlippage_bestRoute (q : Quote) (s : Nat) :
    (applySlippageProtection q s).bestRoute = q.bestRoute := by
  rw [applySlippageProtection]
  split
  · rfl
  · split <;> rfl

theorem applySlippage_set (q : Quote) (s : Nat) {v : Int}
    (ha : q.amountOut = some v) (hv : 0 < v) :
    (applySlippageProtection q s).minAmountOut =
      some (bigDiv (v * ((10000 : Int) - (s : Int))) 10000) ∧
    (applySlippageProtection q s).slippageBps = s := by
  rw [applySlippageProtection]
  split
  · simp_all
  · rename_i w hw
    rw [ha] at hw
    obtain rfl : v = w := Option.some.inj hw
    rw [if_neg (by omega)]
    exact ⟨rfl, rfl⟩

/-- Structure of any quote produced by `getSmartQuote`. -/
theorem getSmartQuote_shape {tIn tOut : Token} {amountIn : Int} {s : Nat}
    {prices : List PriceResult} {q : Quote}
    (h : getSmartQuote tIn tOut amountIn s prices = some q) :
    ∃ best rest, filterValidPrices prices = best :: rest ∧
      ((∃ q0, trySplitOrder tIn tOut amountIn (best :: rest) = some q0 ∧
              2 ≤ (best :: rest).length ∧
              q = applySlippageProtection q0 (effectiveSlippage s)) ∨
       (q = applySlippageProtection (fallbackQuote tIn tOut amountIn best)
              (effectiveSlippage s) ∧
        ((best :: rest).length < 2 ∨
         trySplitOrder tIn tOut amountIn (best :: rest) = none))) := by
  rw [getSmartQuote] at h
  split at h
  · exact absurd h (by simp)
  · rename_i best rest hv
    refine ⟨best, rest, hv, ?_⟩
    split at h
    · rename_i q0 hif
      by_cases hl : 2 ≤ (best :: rest).length
      · rw [if_pos hl] at hif
        exact Or.inl ⟨q0, hif, hl, (Option.some.inj h).symm⟩
      · rw [if_neg hl] at hif
        exact absurd hif (by simp)
    · rename_i hif
      by_cases hl : 2 ≤ (best :: rest).length
      · rw [if_pos hl] at hif
        exact Or.inr ⟨(Option.some.inj h).symm, Or.inr hif⟩
      · exact Or.inr ⟨(Option.some.inj h).symm, Or.inl (by omega)⟩

theorem propagateHops_nonneg (hops : List Hop) {c : Int} (hc : 0 ≤ c) :
    0 ≤ propagateHops hops c := by
  induction hops generalizing c with
  | nil => exact hc
  | cons hop rest ih =>
    rw [propagateHops]
    by_cases hnext : getAmountOut hop.pair (some c) hop.tokenIn ≤ 0
    · rw [if_pos hnext]
    · rw [if_neg hnext]
      exact ih (by omega)

theorem calculateAmountOut_nonneg (r : Route) (h : 0 ≤ r.amountIn.getD 0) :
    0 ≤ calculateAmountOut r := by
  rcases ha : r.amountIn with _ | a
  · simp [calculateAmountOut, ha]
  · rw [ha] at h
    simp only [Option.getD] at h
    by_cases hh : r.hops = []
    · simp [calculateAmountOut, ha, hh]
    · simp only [calculateAmountOut, ha, if_neg hh]
      exact propagateHops_nonneg _ h

theorem calculateSpotAmount_nonneg (r : Route) (h : 0 ≤ r.amountIn.getD 0) :
    0 ≤ calculateSpotAmount r := by
  rcases ha : r.amountIn with _ | a
  · simp [calculateSpotAmount, ha]
  · rw [ha] at h
    simp only [Option.getD] at h
    by_cases hh : r.hops = []
    · simp [calculateSpotAmount, ha, hh]
    · simp only [calculateSpotAmount, ha, if_neg hh]
      exact bigDiv_nonneg
        (mul_nonneg h (propagateHops_nonneg _ (by positivity))) (by positivity)

/-- Every quote returned by `getSmartQuote` has a positive `amountOut`. -/
theorem getSmartQuote_amountOut_pos {tIn tOut : Token} {amountIn : Int} {s : Nat}
    {prices : List PriceResult} {q : Quote}
    (h : getSmartQuote tIn tOut amountIn s prices = some q) :
    ∃ v, q.amountOut = some v ∧ 0 < v := by
  obtain ⟨best, rest, hv, hcase⟩ := getSmartQuote_shape h
  rcases hcase with ⟨q0, hsp, hlen, rfl⟩ | ⟨rfl, -⟩
  · obtain ⟨pr0, pr1, tail, hs, hlt, rfl⟩ := trySplitOrder_some_spec hsp
    refine ⟨(splitFold tIn tOut amountIn (pairOf pr0) (pairOf pr1)).bestOut, ?_, ?_⟩
    · rw [applySlippage_amountOut]; rfl
    · have hmem : pr0 ∈ filterValidPrices prices := by
        rw [hv, ← mem_sortByOutDesc (l := best :: rest), hs]
        exact List.mem_cons_self _ _
      have := mem_filterValid_out_pos hmem
      omega
  · refine ⟨outOf best, ?_, ?_⟩
    · rw [applySlippage_amountOut]; rfl
    · exact mem_filterValid_out_pos (by rw [hv]; exact List.mem_cons_self _ _)

/-- Claim C1: for every pair, `Pair.GetAmountOut` with positive chosen
reserves (selected by comparing `tokenIn` with token0's address) and
positive `amountIn` returns exactly
`(amountIn * (10000 - feeBps) * reserveOut) / (reserveIn * 10000 + amountIn * (10000 - feeBps))`
(floor division, since all operands are non-negative when
`feeBps ≤ 10000`); and it returns 0 whenever `amountIn` is nil or
non-positive or either chosen reserve is nil or zero. -/
theorem c1_getAmountOut_formula (p : Pair) (tIn : Address) (a : Int)
    (_hfee : p.fee ≤ 10000) :
    (∀ reserveIn reserveOut : Int,
      (if tIn = p.token0.address then p.reserve0 else p.reserve1) = some reserveIn →
      (if tIn = p.token0.address then p.reserve1 else p.reserve0) = some reserveOut →
      ((0 < a → 0 < reserveIn → 0 < reserveOut →
         getAmountOut p (some a) tIn =
           bigDiv (a * ((10000 : Int) - (p.fee : Int)) * reserveOut)
                  (reserveIn * 10000 + a * ((10000 : Int) - (p.fee : Int)))) ∧
       ((reserveIn = 0 ∨ reserveOut = 0) → getAmountOut p (some a) tIn = 0))) ∧
    getAmountOut p none tIn = 0 ∧
    (a ≤ 0 → getAmountOut p (some a) tIn = 0) ∧
    ((if tIn = p.token0.address then p.reserve0 else p.reserve1) = none →
      getAmountOut p (some a) tIn = 0) ∧
    ((if tIn = p.token0.address then p.reserve1 else p.reserve0) = none →
      getAmountOut p (some a) tIn = 0) := by
  refine ⟨?_, rfl, ?_, ?_, ?_⟩
  · intro reserveIn reserveOut hIn hOut
    constructor
    · intro ha hrIn hrOut
      have h1 : ¬a ≤ 0 := not_le.mpr ha
      have h2 : ¬(reserveIn = 0 ∨ reserveOut = 0) := by omega
      simp only [getAmountOut, hIn, hOut, if_neg h1, if_neg h2]
    · intro hzero
      by_cases h1 : a ≤ 0
      · simp only [getAmountOut, if_pos h1]
      · simp only [getAmountOut, hIn, hOut, if_neg h1, if_pos hzero]
  · intro h1
    simp only [getAmountOut, if_pos h1]
  · intro hnil
    by_cases h1 : a ≤ 0
    · simp only [getAmountOut, if_pos h1]
    · simp only [getAmountOut, hnil, if_neg h1]
  · intro hnil
    by_cases h1 : a ≤ 0
    · simp only [getAmountOut, if_pos h1]
    · rcases hIn : (if tIn = p.token0.address then p.reserve0 else p.reserve1) with _ | w
      · simp only [getAmountOut, hIn, hnil, if_neg h1]
      · simp only [getAmountOut, hIn, hnil, if_neg h1]

/-- Concrete instance of C1: a 0.3 % pool with reserves 1000/1000 and
`amountIn = 100` quotes `⌊997000000 / 10997000⌋ = 90`. -/
theorem c1_witness : getAmountOut poolC (some 100) tokA.address = 90 := by
  have h := ((c1_getAmountOut_formula poolC tokA.address 100 (by decide)).1
    1000 1000 (by decide) (by decide)).1 (by norm_num) (by norm_num) (by norm_num)
  rw [h]
  decide

/-- Claim C6: for a fixed pair of positive reserves and a positive
input, `Pair.GetAmountOut` is monotonically non-increasing in the fee:
`f1 ≤ f2 ≤ 10000` implies the output at fee `f2` is at most the output
at fee `f1`. -/
theorem c6_fee_monotonicity (addr : Address) (t0 t1 : Token) (v0 v1 : Int)
    (d : DEXType) (ts : Int) (a : Int) (tIn : Address) (f1 f2 : Nat)
    (h0 : 0 < v0) (h1 : 0 < v1) (ha : 0 < a) (h12 : f1 ≤ f2) (h2k : f2 ≤ 10000) :
    getAmountOut ⟨addr, t0, t1, some v0, some v1, d, f2, ts⟩ (some a) tIn ≤
    getAmountOut ⟨addr, t0, t1, some v0, some v1, d, f1, ts⟩ (some a) tIn := by
  have hf2i : (f2 : Int) ≤ 10000 := by exact_mod_cast h2k
  have hf12i : (f1 : Int) ≤ (f2 : Int) := by exact_mod_cast h12
  have hm2 : (0 : Int) ≤ 10000 - (f2 : Int) := by omega
  have hm12 : (10000 : Int) - (f2 : Int) ≤ 10000 - (f1 : Int) := by omega
  have key : ∀ rIn rOut : Int, 0 < rIn → 0 < rOut →
      bigDiv (a * ((10000 : Int) - (f2 : Int)) * rOut)
             (rIn * 10000 + a * ((10000 : Int) - (f2 : Int))) ≤
      bigDiv (a * ((10000 : Int) - (f1 : Int)) * rOut)
             (rIn * 10000 + a * ((10000 : Int) - (f1 : Int))) := by
    intro rIn rOut hrIn hrOut
    have hB : (0 : Int) < rIn * 10000 + a * ((10000 : Int) - (f2 : Int)) := by
      have hx := mul_pos hrIn (show (0 : Int) < 10000 by norm_num)
      have hy := mul_nonneg ha.le hm2
      omega
    have hD : (0 : Int) < rIn * 10000 + a * ((10000 : Int) - (f1 : Int)) := by
      have hx := mul_pos hrIn (show (0 : Int) < 10000 by norm_num)
      have hy := mul_nonneg ha.le (hm2.trans hm12)
      omega
    apply bigDiv_le_bigDiv_cross hB hD
    have hexpand :
        a * ((10000 : Int) - (f1 : Int)) * rOut *
          (rIn * 10000 + a * ((10000 : Int) - (f2 : Int))) -
        a * ((10000 : Int) - (f2 : Int)) * rOut *
          (rIn * 10000 + a * ((10000 : Int) - (f1 : Int))) =
        a * rOut * (rIn * 10000) * (((10000 : Int) - (f1 : Int)) - ((10000 : Int) - (f2 : Int))) := by
      ring
    have hnn : (0 : Int) ≤
        a * rOut * (rIn * 10000) * (((10000 : Int) - (f1 : Int)) - ((10000 : Int) - (f2 : Int))) := by
      apply mul_nonneg
      · apply mul_nonneg (mul_nonneg ha.le hrOut.le)
        have := mul_pos hrIn (show (0 : Int) < 10000 by norm_num)
        omega
      · omega
    nlinarith [hexpand, hnn]
  have hne0 : ¬a ≤ 0 := not_le.mpr ha
  by_cases ht : tIn = t0.address
  · have h2 : ¬(v0 = 0 ∨ v1 = 0) := by omega
    simp only [getAmountOut, if_neg hne0, if_pos ht, if_neg h2]
    exact key v0 v1 h0 h1
  · have h2 : ¬(v1 = 0 ∨ v0 = 0) := by omega
    simp only [getAmountOut, if_neg hne0, if_neg ht, if_neg h2]
    exact key v1 v0 h1 h0

/-- Concrete instance of C6: raising the fee from 30 to 100 bps on the
1000/1000 pool does not increase the quote for `amountIn = 100`. -/
theorem c6_witness :
    getAmountOut ⟨12, tokA, tokB, some 1000, some 1000, .uniswapV2, 100, 0⟩ (some 100) 1 ≤
    getAmountOut ⟨12, tokA, tokB, some 1000, some 1000, .uniswapV2, 30, 0⟩ (some 100) 1 :=
  c6_fee_monotonicity 12 tokA tokB 1000 1000 .uniswapV2 0 100 1 30 100
    (by norm_num) (by norm_num) (by norm_num) (by norm_num) (by norm_num)

/-- Claim C9: every pair constructed by `UniswapV3Client.GetPairByTokens`
carries zero reserves, so `Pair.GetAmountOut` on such a pair yields 0
for every amount and token direction — a consumer that re-evaluates a
V3 snapshot with local constant-product math obtains no output. -/
theorem c9_v3_pair_zero_output (poolAddr : Address) (t0 t1 : Token)
    (fee : Nat) (ts : Int) (amountIn : Option Int) (tIn : Address) :
    (mkV3Pair poolAddr t0 t1 fee ts).reserve0 = some 0 ∧
    (mkV3Pair poolAddr t0 t1 fee ts).reserve1 = some 0 ∧
    getAmountOut (mkV3Pair poolAddr t0 t1 fee ts) amountIn tIn = 0 := by
  refine ⟨rfl, rfl, ?_⟩
  rcases amountIn with _ | a
  · rfl
  · by_cases h1 : a ≤ 0
    · simp only [getAmountOut, if_pos h1]
    · simp only [getAmountOut, mkV3Pair, if_neg h1, ite_self]
      simp

/-- Claim C10: `Pair.GetAmountOut` treats every `tokenIn` address that
differs from token0's address — including addresses of neither pool
token — exactly as it treats token1's address (under the data-model
invariant that the two pool tokens have distinct addresses). -/
theorem c10_unknown_token_as_token1 (p : Pair) (amountIn : Option Int)
    (tIn : Address) (h1 : tIn ≠ p.token0.address)
    (h2 : p.token1.address ≠ p.token0.address) :
    getAmountOut p amountIn tIn = getAmountOut p amountIn p.token1.address := by
  rcases amountIn with _ | a
  · rfl
  · simp only [getAmountOut, if_neg h1, if_neg h2]

/-- Concrete instance of C10: the unrelated address 7 quotes exactly as
token1's address on the example pool. -/
theorem c10_witness :
    getAmountOut poolA (some 40) 7 = getAmountOut poolA (some 40) poolA.token1.address :=
  c10_unknown_token_as_token1 poolA (some 40) 7 (by decide) (by decide)

/-- Claim C4 (code bug): on a cache hit, `PriceService.GetPrices`
computes `amountOut` locally from the cached snapshot even when the
snapshot is a UniswapV3 pair — the result is the local constant-product
value 0, is independent of anything the adapter could return, and the
adapter is never invoked; by contrast a cache miss on the same venue
quotes positively.  The spec requires a V3 cache hit to be treated as a
miss. -/
theorem c4_v3_cache_hit_uses_local_math :
    (venueFetchResult .uniswapV3 (some cachedV3Pair) (some poolA) (some 100) tokA.address).amountOut
      = some 0 ∧
    (venueFetchResult .uniswapV3 (some cachedV3Pair) (some poolA) (some 100) tokA.address).amountOut
      = some (getAmountOut cachedV3Pair (some 100) tokA.address) ∧
    venueFetchResult .uniswapV3 (some cachedV3Pair) (some poolA) (some 100) tokA.address
      = venueFetchResult .uniswapV3 (some cachedV3Pair) none (some 100) tokA.address ∧
    0 < (venueFetchResult .uniswapV3 none (some poolA) (some 100) tokA.address).amountOut.getD 0 := by
  exact ⟨by decide, rfl, rfl, by decide⟩

/-- Claim C5: `Route.CalculatePriceImpact` returns exactly
`max 0 ⌊(spot - actual) * 10000 / spot⌋` when `spot > 0` and
`actual > 0`, 10000 when `spot > 0` and `actual = 0`, and 0 otherwise
(`spot = 0`, empty route, nil or zero `amountIn`) — where `spot` is the
probe-scaled spot amount and `actual` the simulated route output — and
the result always lies in `[0, 10000]`. -/
theorem c5_price_impact_formula (r : Route) (h : 0 ≤ r.amountIn.getD 0) :
    calculatePriceImpact r =
      (if r.hops = [] ∨ r.amountIn = none ∨ r.amountIn = some 0 then 0
       else if 0 < calculateSpotAmount r ∧ 0 < calculateAmountOut r then
         max 0 (bigDiv ((calculateSpotAmount r - calculateAmountOut r) * 10000)
                       (calculateSpotAmount r))
       else if 0 < calculateSpotAmount r ∧ calculateAmountOut r = 0 then 10000
       else 0) ∧
    0 ≤ calculatePriceImpact r ∧ calculatePriceImpact r ≤ 10000 := by
  have hspot := calculateSpotAmount_nonneg r h
  have hact := calculateAmountOut_nonneg r h
  constructor
  · rcases ha : r.amountIn with _ | a
    · simp [calculatePriceImpact, ha]
    · by_cases hg : r.hops = [] ∨ a = 0
      · rcases hg with hg | hg
        · simp [calculatePriceImpact, ha, hg]
        · simp [calculatePriceImpact, ha, hg]
      · push_neg at hg
        rw [if_neg (show ¬(r.hops = [] ∨ (some a : Option Int) = none ∨
            (some a : Option Int) = some 0) by simp [hg.1, hg.2])]
        simp only [calculatePriceImpact, ha,
          if_neg (show ¬(r.hops = [] ∨ a = 0) by tauto)]
        by_cases hs0 : calculateSpotAmount r = 0
        · rw [if_pos hs0]
          simp [hs0]
        · have hspos : 0 < calculateSpotAmount r := lt_of_le_of_ne hspot (Ne.symm hs0)
          rw [if_neg hs0]
          by_cases hact0 : calculateAmountOut r = 0
          · rw [if_pos hact0,
              if_neg (show ¬(0 < calculateSpotAmount r ∧ 0 < calculateAmountOut r) by
                simp [hact0]),
              if_pos (show 0 < calculateSpotAmount r ∧ calculateAmountOut r = 0 from
                ⟨hspos, hact0⟩)]
          · have hapos : 0 < calculateAmountOut r := lt_of_le_of_ne hact (Ne.symm hact0)
            rw [if_neg hact0,
              if_pos (show 0 < calculateSpotAmount r ∧ 0 < calculateAmountOut r from
                ⟨hspos, hapos⟩)]
            by_cases hd : calculateSpotAmount r - calculateAmountOut r ≤ 0
            · rw [if_pos hd]
              have hnp : bigDiv ((calculateSpotAmount r - calculateAmountOut r) * 10000)
                  (calculateSpotAmount r) ≤ 0 :=
                bigDiv_nonpos (by nlinarith) hspos
              exact (max_eq_left hnp).symm
            · push_neg at hd
              rw [if_neg (not_le.mpr hd)]
              have hnn : 0 ≤ bigDiv ((calculateSpotAmount r - calculateAmountOut r) * 10000)
                  (calculateSpotAmount r) :=
                bigDiv_nonneg (by nlinarith) hspos.le
              exact (max_eq_right hnn).symm
  · rcases ha : r.amountIn with _ | a
    · simp [calculatePriceImpact, ha]
    · simp only [calculatePriceImpact, ha]
      split_ifs with hg hs0 hact0 hd
      · norm_num
      · norm_num
      · norm_num
      · norm_num
      · have hspos : 0 < calculateSpotAmount r := lt_of_le_of_ne hspot (Ne.symm hs0)
        push_neg at hd
        constructor
        · exact bigDiv_nonneg (by nlinarith) hspos.le
        · have hmul : (calculateSpotAmount r - calculateAmountOut r) * 10000 ≤
              calculateSpotAmount r * 10000 :=
            mul_le_mul_of_nonneg_right (by omega) (by norm_num)
          have hstep : bigDiv ((calculateSpotAmount r - calculateAmountOut r) * 10000)
              (calculateSpotAmount r) ≤
              bigDiv (calculateSpotAmount r * 10000) (calculateSpotAmount r) := by
            rw [bigDiv_eq, bigDiv_eq]
            exact Int.ediv_le_ediv hspos hmul
          have hcancel : bigDiv (calculateSpotAmount r * 10000) (calculateSpotAmount r)
              = 10000 := by
            rw [bigDiv_eq, mul_comm]
            exact Int.mul_ediv_cancel 10000 (ne_of_gt hspos)
          omega

/-- Concrete instance of C5: the 10 %-depth route over the deep pool has
a price impact within `[0, 10000]`. -/
theorem c5_witness :
    0 ≤ calculatePriceImpact impactWitnessRoute ∧
    calculatePriceImpact impactWitnessRoute ≤ 10000 :=
  (c5_price_impact_formula impactWitnessRoute (by decide)).2

/-- Claim C2: the quote chosen by `GetSmartQuote` never outputs less
than the best single venue among the valid candidates, and it carries
split routes exactly when the best split total strictly exceeds every
valid candidate's single-venue output (in particular the largest). -/
theorem c2_split_dominance (tIn tOut : Token) (amountIn : Int) (s : Nat)
    (prices : List PriceResult) (q : Quote)
    (h : getSmartQuote tIn tOut amountIn s prices = some q) :
    (∀ p ∈ filterValidPrices prices, outOf p ≤ q.amountOut.getD 0) ∧
    (q.splitRoutes ≠ [] ↔
      (2 ≤ (filterValidPrices prices).length ∧
       ∀ p ∈ filterValidPrices prices,
         outOf p < bestSplitTotal tIn tOut amountIn (filterValidPrices prices))) := by
  obtain ⟨best, rest, hval, hcase⟩ := getSmartQuote_shape h
  rcases hcase with ⟨q0, hsp, hlen, hq⟩ | ⟨hq, hfb⟩
  · obtain ⟨pr0, pr1, tail, hs, hlt, hq0⟩ := trySplitOrder_some_spec hsp
    subst hq0
    subst hq
    have hmemsorted : ∀ x ∈ filterValidPrices prices, outOf x ≤ outOf pr0 := by
      intro x hx
      rw [hval] at hx
      exact sortByOutDesc_head_max (best :: rest) pr0 (pr1 :: tail) hs x hx
    have hpr0mem : pr0 ∈ filterValidPrices prices := by
      rw [hval, ← mem_sortByOutDesc (l := best :: rest), hs]
      exact List.mem_cons_self _ _
    have hpr0pos : 0 < outOf pr0 := mem_filterValid_out_pos hpr0mem
    have hamount : (applySlippageProtection (mkSplitQuote tIn tOut amountIn pr0
        (splitFold tIn tOut amountIn (pairOf pr0) (pairOf pr1)))
        (effectiveSlippage s)).amountOut
        = some (splitFold tIn tOut amountIn (pairOf pr0) (pairOf pr1)).bestOut := by
      rw [applySlippage_amountOut]; rfl
    have hsplit : (applySlippageProtection (mkSplitQuote tIn tOut amountIn pr0
        (splitFold tIn tOut amountIn (pairOf pr0) (pairOf pr1)))
        (effectiveSlippage s)).splitRoutes
        = (splitFold tIn tOut amountIn (pairOf pr0) (pairOf pr1)).bestSplits := by
      rw [applySlippage_splitRoutes]; rfl
    have hbst : bestSplitTotal tIn tOut amountIn (filterValidPrices prices)
        = (splitFold tIn tOut amountIn (pairOf pr0) (pairOf pr1)).bestOut := by
      rw [hval]; simp only [bestSplitTotal, hs]
    constructor
    · intro p hp
      rw [hamount]
      have := hmemsorted p hp
      simp only [Option.getD]
      omega
    · rw [hsplit, hbst]
      constructor
      · intro _
        refine ⟨by rw [hval]; exact hlen, ?_⟩
        intro p hp
        exact lt_of_le_of_lt (hmemsorted p hp) hlt
      · intro _
        rcases splitFold_ok tIn tOut amountIn (pairOf pr0) (pairOf pr1) with
          ⟨-, hzero⟩ | ⟨r1, r2, -, hlegs, -, -⟩
        · omega
        · rw [hlegs]; simp
  · subst hq
    have hamount : (applySlippageProtection (fallbackQuote tIn tOut amountIn best)
        (effectiveSlippage s)).amountOut = some (outOf best) := by
      rw [applySlippage_amountOut]; rfl
    have hsplit : (applySlippageProtection (fallbackQuote tIn tOut amountIn best)
        (effectiveSlippage s)).splitRoutes = [] := by
      rw [applySlippage_splitRoutes]; rfl
    constructor
    · intro p hp
      rw [hamount]
      have := filterValid_head_max hval p hp
      simp only [Option.getD]
      omega
    · rw [hsplit]
      constructor
      · intro hne; exact absurd rfl hne
      · rintro ⟨hl2, hall⟩
        exfalso
        rcases hfb with hfb | hfb
        · rw [hval] at hl2; omega
        · obtain ⟨pr0, pr1, tail, hs, hle⟩ :=
            trySplitOrder_none_spec (by rw [hval] at hl2; exact hl2) hfb
          have hpr0mem : pr0 ∈ filterValidPrices prices := by
            rw [hval, ← mem_sortByOutDesc (l := best :: rest), hs]
            exact List.mem_cons_self _ _
          have hbig := hall pr0 hpr0mem
          have hbst : bestSplitTotal tIn tOut amountIn (filterValidPrices prices)
              = (splitFold tIn tOut amountIn (pairOf pr0) (pairOf pr1)).bestOut := by
            rw [hval]; simp only [bestSplitTotal, hs]
          rw [hbst] at hbig
          omega

/-- Concrete instance of C2 on the two-venue scenario where the 50/50
split (out 66) beats the best single venue (out 50). -/
theorem c2_witness :
    (∀ p ∈ filterValidPrices twoVenuePrices,
      outOf p ≤ smartWitnessQuote.amountOut.getD 0) ∧
    (smartWitnessQuote.splitRoutes ≠ [] ↔
      (2 ≤ (filterValidPrices twoVenuePrices).length ∧
       ∀ p ∈ filterValidPrices twoVenuePrices,
         outOf p < bestSplitTotal tokA tokB 100 (filterValidPrices twoVenuePrices))) :=
  c2_split_dominance tokA tokB 100 0 twoVenuePrices smartWitnessQuote (by decide)

/-- Claim C3: for requested slippage in `[0, 10000]`, the returned
quote's slippage is the effective slippage (50 bps when 0 was
requested), `minAmountOut = ⌊amountOut * (10000 - slippage) / 10000⌋`,
and `minAmountOut ≤ amountOut`. -/
theorem c3_slippage_protection (tIn tOut : Token) (amountIn : Int) (s : Nat)
    (prices : List PriceResult) (q : Quote) (_hs10k : s ≤ 10000)
    (h : getSmartQuote tIn tOut amountIn s prices = some q) :
    q.slippageBps = effectiveSlippage s ∧
    (s = 0 → q.slippageBps = 50) ∧
    q.minAmountOut = some (bigDiv (q.amountOut.getD 0 *
      ((10000 : Int) - (effectiveSlippage s : Int))) 10000) ∧
    q.minAmountOut.getD 0 ≤ q.amountOut.getD 0 := by
  obtain ⟨v, hv, hvpos⟩ := getSmartQuote_amountOut_pos h
  obtain ⟨best, rest, hval, hcase⟩ := getSmartQuote_shape h
  have hq : ∃ q0, q = applySlippageProtection q0 (effectiveSlippage s) := by
    rcases hcase with ⟨q0, -, -, hq⟩ | ⟨hq, -⟩
    exacts [⟨q0, hq⟩, ⟨_, hq⟩]
  obtain ⟨q0, rfl⟩ := hq
  have hq0 : q0.amountOut = some v := by
    rw [← applySlippage_amountOut q0 (effectiveSlippage s)]
    exact hv
  obtain ⟨hmin, hbps⟩ := applySlippage_set q0 (effectiveSlippage s) hq0 hvpos
  refine ⟨hbps, ?_, ?_, ?_⟩
  · intro h0
    rw [hbps]
    simp [effectiveSlippage, h0, defaultSlippageBps]
  · rw [hmin, hv]
    rfl
  · rw [hmin, hv]
    simp only [Option.getD]
    exact bigDiv_mul_le_self hvpos.le (by omega)

/-- Concrete instance of C3 with requested slippage 0: the default
50 bps applies on the two-venue scenario. -/
theorem c3_witness :
    smartWitnessQuote.slippageBps = effectiveSlippage 0 ∧
    ((0 : Nat) = 0 → smartWitnessQuote.slippageBps = 50) ∧
    smartWitnessQuote.minAmountOut = some (bigDiv (smartWitnessQuote.amountOut.getD 0 *
      ((10000 : Int) - (effectiveSlippage 0 : Int))) 10000) ∧
    smartWitnessQuote.minAmountOut.getD 0 ≤ smartWitnessQuote.amountOut.getD 0 :=
  c3_slippage_protection tokA tokB 100 0 twoVenuePrices smartWitnessQuote
    (by norm_num) (by decide)

/-- Claim C7: every split quote returned by `trySplitOrder` carries
exactly two legs whose percentages sum to 100, whose first leg receives
`⌊amountIn * r1 / 100⌋` and second leg the remainder (so the leg inputs
sum to the parent `amountIn`), and whose aggregate output is the sum of
the legs' outputs. -/
theorem c7_split_legs (tIn tOut : Token) (amountIn : Int)
    (prices : List PriceResult) (q : Quote)
    (hpos : ∀ p ∈ prices, 0 < outOf p)
    (h : trySplitOrder tIn tOut amountIn prices = some q) :
    ∃ leg1 leg2 : SplitRoute,
      q.splitRoutes = [leg1, leg2] ∧
      leg1.percentage + leg2.percentage = 100 ∧
      leg1.amountIn = bigDiv (amountIn * (leg1.percentage : Int)) 100 ∧
      leg2.amountIn = amountIn - leg1.amountIn ∧
      leg1.amountIn + leg2.amountIn = amountIn ∧
      q.amountOut = some (leg1.amountOut + leg2.amountOut) := by
  obtain ⟨pr0, pr1, tail, hs, hlt, hq⟩ := trySplitOrder_some_spec h
  subst hq
  have hpr0mem : pr0 ∈ prices :=
    mem_sortByOutDesc.mp (by rw [hs]; exact List.mem_cons_self _ _)
  have hpr0pos : 0 < outOf pr0 := hpos pr0 hpr0mem
  rcases splitFold_ok tIn tOut amountIn (pairOf pr0) (pairOf pr1) with
    ⟨-, hzero⟩ | ⟨r1, r2, hsum, hlegs, hout, -⟩
  · omega
  · refine ⟨_, _, hlegs, hsum, rfl, rfl, by ring, ?_⟩
    show some (splitFold tIn tOut amountIn (pairOf pr0) (pairOf pr1)).bestOut = _
    rw [hout]

/-- Concrete instance of C7 on the two-venue scenario: the adopted
50/50 split has legs 50+50 = 100 %, inputs 50+50 = 100, outputs summing
to the quote's 66. -/
theorem c7_witness :
    ∃ leg1 leg2 : SplitRoute,
      splitWitnessQuote.splitRoutes = [leg1, leg2] ∧
      leg1.percentage + leg2.percentage = 100 ∧
      leg1.amountIn = bigDiv (100 * (leg1.percentage : Int)) 100 ∧
      leg2.amountIn = 100 - leg1.amountIn ∧
      leg1.amountIn + leg2.amountIn = 100 ∧
      splitWitnessQuote.amountOut = some (leg1.amountOut + leg2.amountOut) :=
  c7_split_legs tokA tokB 100 twoVenuePrices splitWitnessQuote (by decide) (by decide)

/-- Claim C8: a quote without split routes has a one-hop best route and
gas `21000 + 100000 * hopCount` (and `estimateGas` yields that formula
for every route with at least one hop); a two-leg split quote has gas
`450000 = 2 * 150000 + 150000`. -/
theorem c8_gas_estimates (tIn tOut : Token) (amountIn : Int) (s : Nat)
    (prices : List PriceResult) (q : Quote)
    (h : getSmartQuote tIn tOut amountIn s prices = some q) :
    (∀ r : Route, r.hops ≠ [] → estimateGas (some r) = 21000 + r.hops.length * 100000) ∧
    (q.splitRoutes = [] →
      ∃ r, q.bestRoute = some r ∧ r.hops.length = 1 ∧
        q.gasEstimate = 21000 + r.hops.length * 100000) ∧
    (q.splitRoutes ≠ [] → q.gasEstimate = 450000) := by
  obtain ⟨best, rest, hval, hcase⟩ := getSmartQuote_shape h
  refine ⟨?_, ?_, ?_⟩
  · intro r hr
    simp only [estimateGas]
    rw [if_neg (by simpa using hr)]
  · intro hempty
    rcases hcase with ⟨q0, hsp, hlen, hq⟩ | ⟨hq, -⟩
    · obtain ⟨pr0, pr1, tail, hs, hlt, hq0⟩ := trySplitOrder_some_spec hsp
      subst hq0
      subst hq
      have hpr0mem : pr0 ∈ filterValidPrices prices := by
        rw [hval, ← mem_sortByOutDesc (l := best :: rest), hs]
        exact List.mem_cons_self _ _
      have hpr0pos : 0 < outOf pr0 := mem_filterValid_out_pos hpr0mem
      rcases splitFold_ok tIn tOut amountIn (pairOf pr0) (pairOf pr1) with
        ⟨-, hzero⟩ | ⟨r1, r2, -, hlegs, -, -⟩
      · omega
      · exfalso
        rw [applySlippage_splitRoutes] at hempty
        simp only [mkSplitQuote] at hempty
        rw [hlegs] at hempty
        simp at hempty
    · subst hq
      refine ⟨buildRoute tIn tOut amountIn best, ?_, rfl, ?_⟩
      · rw [applySlippage_bestRoute]; rfl
      · rw [applySlippage_gasEstimate]; rfl
  · intro hne
    rcases hcase with ⟨q0, hsp, hlen, hq⟩ | ⟨hq, -⟩
    · obtain ⟨pr0, pr1, tail, hs, hlt, hq0⟩ := trySplitOrder_some_spec hsp
      subst hq0
      subst hq
      have hpr0mem : pr0 ∈ filterValidPrices prices := by
        rw [hval, ← mem_sortByOutDesc (l := best :: rest), hs]
        exact List.mem_cons_self _ _
      have hpr0pos : 0 < outOf pr0 := mem_filterValid_out_pos hpr0mem
      rcases splitFold_ok tIn tOut amountIn (pairOf pr0) (pairOf pr1) with
        ⟨-, hzero⟩ | ⟨r1, r2, -, -, -, hgas⟩
      · omega
      · rw [applySlippage_gasEstimate]
        show (splitFold tIn tOut amountIn (pairOf pr0) (pairOf pr1)).bestGas +
          estimateGas none = 450000
        rw [hgas]
        rfl
    · subst hq
      exfalso
      rw [applySlippage_splitRoutes] at hne
      exact hne rfl

/-- Concrete instance of C8 on the one-venue scenario: no split, a
one-hop route, gas 121000. -/
theorem c8_witness :
    (∀ r : Route, r.hops ≠ [] → estimateGas (some r) = 21000 + r.hops.length * 100000) ∧
    (singleWitnessQuote.splitRoutes = [] →
      ∃ r, singleWitnessQuote.bestRoute = some r ∧ r.hops.length = 1 ∧
        singleWitnessQuote.gasEstimate = 21000 + r.hops.length * 100000) ∧
    (singleWitnessQuote.splitRoutes ≠ [] → singleWitnessQuote.gasEstimate = 450000) :=
  c8_gas_estimates tokA tokB 100 100 oneVenuePrices singleWitnessQuote (by decide)

end DexAgg
